import Mathlib

/-!
Verification development for ArchGuard (github.com/tgenz1213/archguard),
an architectural-drift detector.  The Go sources are shallowly embedded:
pure functions are translated to Lean functions; the filesystem is an
explicit partial map from paths to contents; machine integers are Nat;
fallible operations return Option or Except.  External collaborators that
the repository only calls (the JSON codec, the Go standard sort used by
sort.Slice, the tiktoken tokenizer, git, the LLM provider, sha256) are
modeled at their documented interface boundaries as explicit parameters.
-/

namespace ArchGuard

/-! ## String helpers -/

/-- Model of Go slicing s[:n] on string content. -/
def strTake (s : String) (n : Nat) : String :=
  String.mk (s.data.take n)

/-- Model of Go strings.LastIndex(s, c) for a single character. -/
def lastIdxOf (c : Char) : List Char → Option Nat
  | [] => none
  | x :: xs =>
    match lastIdxOf c xs with
    | some i => some (i + 1)
    | none => if x = c then some 0 else none

def hasPrefixList : List Char → List Char → Bool
  | [], _ => true
  | _ :: _, [] => false
  | c :: cs, d :: ds => c = d && hasPrefixList cs ds

def containsList (sub : List Char) : List Char → Bool
  | [] => sub.isEmpty
  | c :: cs => hasPrefixList sub (c :: cs) || containsList sub cs

/-- Model of Go strings.Contains. -/
def strContains (s sub : String) : Bool :=
  containsList sub.data s.data

/-! ## llm.AnalysisResult and its JSON serialization

The repository serializes llm.AnalysisResult with encoding/json.  We embed
a concrete codec for exactly this struct shape: marshal produces the JSON
object text, unmarshal parses it back, and unmarshal fails (returns none)
on any text outside the codec's grammar — standing for json.Unmarshal's
error on corrupt input. -/

structure AnalysisResult where
  violation : Bool
  reasoning : String
  quoted_code : String
deriving DecidableEq, Repr

/-- JSON string-body escaping for the two escapable characters. -/
def escChar (c : Char) : List Char :=
  if c = '"' then ['\\', '"']
  else if c = '\\' then ['\\', '\\']
  else [c]

def escape : List Char → List Char
  | [] => []
  | c :: cs => escChar c ++ escape cs

/-- Prepend a parsed character onto a string-body parse result. -/
def consParsed (c : Char) : Option (List Char × List Char) → Option (List Char × List Char)
  | some (s, r) => some (c :: s, r)
  | none => none

mutual

/-- Parse a JSON string body up to and including its closing quote. -/
def parseStringBody : List Char → Option (List Char × List Char)
  | [] => none
  | c :: rest =>
    if c = '"' then some ([], rest)
    else if c = '\\' then parseEscapeTail rest
    else consParsed c (parseStringBody rest)

/-- Parse the character following a backslash, then the rest of the body. -/
def parseEscapeTail : List Char → Option (List Char × List Char)
  | [] => none
  | d :: rest2 =>
    if d = '"' ∨ d = '\\' then consParsed d (parseStringBody rest2)
    else none

end

/-- Expect a literal prefix, returning the remainder. -/
def dropLit : List Char → List Char → Option (List Char)
  | [], r => some r
  | _ :: _, [] => none
  | c :: cs, d :: r => if c = d then dropLit cs r else none

def jsonLitA : List Char :=
  ['\x7b', '"', 'v', 'i', 'o', 'l', 'a', 't', 'i', 'o', 'n', '"', ':']

def jsonLitB : List Char :=
  [',', '"', 'r', 'e', 'a', 's', 'o', 'n', 'i', 'n', 'g', '"', ':', '"']

def jsonLitC : List Char :=
  [',', '"', 'q', 'u', 'o', 't', 'e', 'd', '_', 'c', 'o', 'd', 'e', '"', ':', '"']

def trueLit : List Char := ['t', 'r', 'u', 'e']

def falseLit : List Char := ['f', 'a', 'l', 's', 'e']

def boolLit (b : Bool) : List Char :=
  if b then trueLit else falseLit

/-- Model of json.Marshal on llm.AnalysisResult. -/
def marshalAnalysisResult (r : AnalysisResult) : String :=
  String.mk (jsonLitA ++ boolLit r.violation ++ jsonLitB ++
    escape r.reasoning.data ++ ['"'] ++ jsonLitC ++
    escape r.quoted_code.data ++ ['"', '\x7d'])

def parseBool (l : List Char) : Option (Bool × List Char) :=
  match dropLit trueLit l with
  | some r => some (true, r)
  | none =>
    match dropLit falseLit l with
    | some r => some (false, r)
    | none => none

/-- Model of json.Unmarshal into llm.AnalysisResult. -/
def unmarshalAnalysisResult (s : String) : Option AnalysisResult :=
  (dropLit jsonLitA s.data).bind fun r1 =>
  (parseBool r1).bind fun br =>
  (dropLit jsonLitB br.2).bind fun r3 =>
  (parseStringBody r3).bind fun rr =>
  (dropLit jsonLitC rr.2).bind fun r5 =>
  (parseStringBody r5).bind fun qr =>
  if qr.2 = ['\x7d'] then some ⟨br.1, String.mk rr.1, String.mk qr.1⟩
  else none

/-! ## cache.Cache over an explicit filesystem

The process filesystem is modeled as a partial map from paths to file
contents.  os.Stat followed by os.ReadFile is collapsed into one reliable
lookup; a missing path stands for os.IsNotExist. -/

abbrev Fs := String → Option String

structure Cache where
  Dir : String
deriving DecidableEq, Repr

/-- cache.NewCache: filepath.Join(projectRoot, ".archguard", "cache").
Path cleaning performed by filepath.Join is elided. -/
def NewCache (projectRoot : String) : Cache :=
  ⟨projectRoot ++ "/.archguard/cache"⟩

def cachePath (c : Cache) (key : String) : String :=
  c.Dir ++ "/" ++ key ++ ".json"

/-- The three return values of Go Cache.Get. -/
structure CacheGetOut where
  res : Option AnalysisResult
  found : Bool
  err : Option String
deriving DecidableEq, Repr

/-- cache.Cache.Get: a missing file is (nil, false, nil); a file that fails
json.Unmarshal returns (nil, false, err) — found is false but the unmarshal
error is returned as the third value. -/
def Cache.Get (c : Cache) (fs : Fs) (key : String) : CacheGetOut :=
  match fs (cachePath c key) with
  | none => ⟨none, false, none⟩
  | some data =>
    match unmarshalAnalysisResult data with
    | none => ⟨none, false, some "unmarshal error"⟩
    | some res => ⟨some res, true, none⟩

/-- cache.Cache.Put: marshal the verdict and write it; the write is modeled
as reliable, yielding the updated filesystem. -/
def Cache.Put (c : Cache) (fs : Fs) (key : String) (res : AnalysisResult) : Fs :=
  fun p => if p = cachePath c key then some (marshalAnalysisResult res) else fs p

/-- cache.ComputeAnalysisKey.  sha256 + hex encoding is an external
collaborator, passed in as the function `hash`; the preimage construction
(the five components joined by the literal separator) is translated
exactly. -/
def ComputeAnalysisKey (hash : String → String)
    (modelName adrContent fileContent systemPrompt userPromptTemplate : String) : String :=
  hash (modelName ++ "||" ++ adrContent ++ "||" ++ fileContent ++ "||" ++
    systemPrompt ++ "||" ++ userPromptTemplate)

/-! ## llm.CleanJSON and llm.AnalyzeDrift -/

/-- Model of Go strings.Index(s, c) for a single character. -/
def firstIdxOf (c : Char) : List Char → Option Nat
  | [] => none
  | x :: xs =>
    if x = c then some 0
    else
      match firstIdxOf c xs with
      | some i => some (i + 1)
      | none => none

/-- Model of Go strings.TrimSpace. -/
def trimSpace (s : String) : String :=
  String.mk (((s.data.dropWhile Char.isWhitespace).reverse.dropWhile
    Char.isWhitespace).reverse)

/-- llm.CleanJSON: trim whitespace, then slice from the first opening brace
to the last closing brace when that span is nonempty. -/
def CleanJSON (input : String) : String :=
  let t := trimSpace input
  match firstIdxOf '\x7b' t.data, lastIdxOf '\x7d' t.data with
  | some start, some stop =>
    if start < stop then String.mk ((t.data.drop start).take (stop + 1 - start))
    else t
  | _, _ => t

/-- llm.maxRetries. -/
def maxRetries : Nat := 3

/-- The string of context.Canceled, returned by ctx.Err() on cancellation. -/
def ctxCanceledErr : String := "context canceled"

/-- The external effects AnalyzeDrift interacts with: the provider Chat call
at each attempt index, json.Unmarshal on the response, and whether the
cancellation context fires during the backoff wait before a given attempt. -/
structure ChatOracle where
  chat : Nat → Except String String
  unmarshal : String → Option AnalysisResult
  cancelled : Nat → Bool

/-- Observable outcome of one AnalyzeDrift call: the returned value, the
number of Chat attempts actually made, and the backoff waits (in seconds)
actually slept. -/
structure DriftOutcome where
  result : Except String AnalysisResult
  attempts : Nat
  waits : List Nat
deriving Repr

/-- The retry loop of llm.AnalyzeDrift: for i := 0; i <= maxRetries; i++.
`i` is the attempt index, `rem` the remaining loop iterations, `backoff`
the current wait in seconds, `lastErr` the last failure, `attempts` the
Chat calls made so far, and `waits` the sleeps performed so far. -/
def analyzeDriftLoop (o : ChatOracle) :
    Nat → Nat → Nat → String → Nat → List Nat → DriftOutcome
  | _, 0, _, lastErr, attempts, waits =>
    ⟨.error ("analysis failed after 3 retries: " ++ lastErr), attempts, waits⟩
  | i, rem + 1, backoff, _, attempts, waits =>
    if 0 < i ∧ o.cancelled i then ⟨.error ctxCanceledErr, attempts, waits⟩
    else
      let waits2 := if 0 < i then waits ++ [backoff] else waits
      let backoff2 := if 0 < i then backoff * 2 else backoff
      match o.chat i with
      | .error e => analyzeDriftLoop o (i + 1) rem backoff2 e (attempts + 1) waits2
      | .ok raw =>
        match o.unmarshal (CleanJSON raw) with
        | some res => ⟨.ok res, attempts + 1, waits2⟩
        | none =>
          match o.unmarshal raw with
          | some res => ⟨.ok res, attempts + 1, waits2⟩
          | none =>
            analyzeDriftLoop o (i + 1) rem backoff2
              ("invalid json from provider") (attempts + 1) waits2

/-- llm.AnalyzeDrift: up to maxRetries+1 = 4 attempts, backoff starting at
2 seconds and doubling after each wait. -/
def AnalyzeDrift (o : ChatOracle) : DriftOutcome :=
  analyzeDriftLoop o 0 (maxRetries + 1) 2 "" 0 []

/-! ## index: ADR store and vector search -/

structure ADR where
  ID : String
  Title : String
  Status : String
  Scope : String
  Content : String
  RelPath : String
  Embedding : List ℚ
deriving DecidableEq, Repr

/-- index.SearchResult.  The Go struct holds a pointer &s.ADRs[i]; the
pointer identity is modeled by carrying the index i alongside the record.
Scores are kept generic in a linear order (the Go float64 score). -/
structure SearchResult (α : Type) where
  idx : Nat
  adr : ADR
  score : α
deriving DecidableEq, Repr

structure Store where
  ADRs : List ADR
  Hash : String
  ModelName : String
  Dim : Nat
deriving DecidableEq, Repr

/-- index.NewStore. -/
def NewStore : Store :=
  ⟨[], "", "", 0⟩

/-- The first loop of Store.Search: score every ADR in index order. -/
def scoredADRs {α : Type} (score : List ℚ → List ℚ → α) (s : Store)
    (queryEmbedding : List ℚ) : List (SearchResult α) :=
  s.ADRs.enum.map (fun p => ⟨p.1, p.2, score queryEmbedding p.2.Embedding⟩)

/-- The candidates Store.Search keeps: score >= threshold, in index order. -/
def filteredResults {α : Type} [LinearOrder α] (score : List ℚ → List ℚ → α)
    (s : Store) (queryEmbedding : List ℚ) (threshold : α) : List (SearchResult α) :=
  (scoredADRs score s queryEmbedding).filter (fun r => decide (threshold ≤ r.score))

/-- The contract Go documents for sort.Slice with less =
results[i].Score > results[j].Score: the output is a permutation of the
input, ordered so that no later element has a strictly greater score.
Stability is deliberately NOT part of the contract (sort.Slice is
documented as not guaranteed to be stable). -/
def SortSliceSpec {α : Type} [LinearOrder α]
    (sortFn : List (SearchResult α) → List (SearchResult α)) : Prop :=
  ∀ l, (sortFn l).Perm l ∧ (sortFn l).Pairwise (fun a b => b.score ≤ a.score)

/-- index.Store.Search, with sort.Slice abstracted as `sortFn` and
cosineSimilarity abstracted as `score`. -/
def Store.Search {α : Type} [LinearOrder α]
    (sortFn : List (SearchResult α) → List (SearchResult α))
    (score : List ℚ → List ℚ → α) (s : Store) (queryEmbedding : List ℚ)
    (threshold : α) (topK : Nat) : List (SearchResult α) :=
  ((sortFn (filteredResults score s queryEmbedding threshold)).take topK)

/-- Modelled from the spec: stable descending insertion by score.  This is
the ordering the spec asserts for Store.Search (descending score, ties in
original index order); it is compared against the sort.Slice contract. -/
def insertDesc {α : Type} [LinearOrder α] (x : SearchResult α) :
    List (SearchResult α) → List (SearchResult α)
  | [] => [x]
  | y :: l => if y.score ≤ x.score then x :: y :: l else y :: insertDesc x l

/-- Modelled from the spec: the stable descending sort (ties keep their
original relative order). -/
def sortDesc {α : Type} [LinearOrder α] :
    List (SearchResult α) → List (SearchResult α)
  | [] => []
  | x :: l => insertDesc x (sortDesc l)

/-! ## index cosine similarity, in exact real semantics

The Go function computes over float64.  We give its real-number semantics:
rational inputs, exact sums, exact square roots in ℝ.  IEEE rounding and
overflow are abstracted away. -/

/-- The dotProduct accumulator of cosineSimilarity. -/
def dotProduct (a b : List ℚ) : ℚ :=
  ((a.zip b).map (fun p => p.1 * p.2)).sum

/-- The normA / normB accumulators of cosineSimilarity (sums of squares,
before the square root is taken). -/
def sumSquares (a : List ℚ) : ℚ :=
  (a.map (fun x => x * x)).sum

/-- A vector all of whose components are zero. -/
def isZeroVec (a : List ℚ) : Prop :=
  ∀ x ∈ a, x = 0

instance (a : List ℚ) : Decidable (isZeroVec a) := by
  unfold isZeroVec
  infer_instance

/-- index.cosineSimilarity: 0 on length mismatch, 0 when either norm is
zero, otherwise dot / (sqrt(normA) * sqrt(normB)). -/
noncomputable def cosineSimilarity (a b : List ℚ) : ℝ :=
  if a.length ≠ b.length then 0
  else if sumSquares a = 0 ∨ sumSquares b = 0 then 0
  else (dotProduct a b : ℝ) / (Real.sqrt (sumSquares a) * Real.sqrt (sumSquares b))

/-! ## analysis.Engine -/

/-- The tokenizer returned by Engine.getTokenizer (tiktoken), abstracted at
its Encode/Decode interface. -/
structure Tokenizer where
  encode : String → List Nat
  decode : List Nat → String

structure LLMConfig where
  Model : String
  MaxTokens : Nat
  SystemPrompt : String
deriving Repr

structure VectorStoreConfig where
  Model : String
  EmbeddingDim : Nat
  SimilarityThreshold : ℚ
deriving Repr

structure AnalysisConfig where
  ADRPath : String
  ExcludePatterns : List String
deriving Repr

structure Config where
  LLM : LLMConfig
  VectorStore : VectorStoreConfig
  Analysis : AnalysisConfig
  IndexFile : String
deriving Repr

/-- llm.DefaultSystemPrompt.  The multi-line prompt text is abbreviated to
its opening sentence; every claim treats it only as a fixed string. -/
def DefaultSystemPrompt : String :=
  "You are a literal-minded Architectural Compliance Auditor."

/-- llm.ChatPrompt (the user prompt template).  Abbreviated likewise. -/
def ChatPrompt : String :=
  "### INPUT DATA File Path: %s <adr_content> %s </adr_content> <code_context> %s </code_context>"

/-- analysis.Engine.  The worker pool, mutex and output buffering affect
only scheduling and printing; the aggregate counts proved about below are
the ones accumulated under the single aggregation lock, so the pipeline is
modeled file by file. -/
structure Engine where
  Config : Config
  Store : Store
  Debug : Bool
  CI : Bool
  Cache : Option Cache

/-- The external collaborators of one Engine run: the ContentProvider, the
tokenizer, the Provider embedding call, llm.AnalyzeDrift at the judge
boundary, cosineSimilarity and sort.Slice inside Store.Search, sha256 for
cache keys, and the two stdlib glob matchers. -/
structure Oracle where
  getFiles : Except String (List String)
  getContent : String → Except String String
  getDiff : String → Except String String
  tokenizer : Option Tokenizer
  createEmbedding : String → Except String (List ℚ)
  analyzeDrift : String → String → String → String → Except String AnalysisResult
  score : List ℚ → List ℚ → ℚ
  sortSlice : List (SearchResult ℚ) → List (SearchResult ℚ)
  hash : String → String
  matchGlob : String → String → Bool
  matchPattern : String → String → Bool

/-- The token-truncation tail of Engine.fetchContext: cut the token ids at
the ceiling, decode, and roll back to the last newline when there is one. -/
def truncateTokens (tkm : Tokenizer) (tokenIds : List Nat) (maxTokens : Nat) : String :=
  let truncatedContent := tkm.decode (tokenIds.take maxTokens)
  match lastIdxOf '\n' truncatedContent.data with
  | some i => strTake truncatedContent (i + 1)
  | none => truncatedContent

/-- analysis.Engine.fetchContext. -/
def Engine.fetchContext (e : Engine) (o : Oracle) (path : String) :
    Except String (String × String) :=
  let maxTokens := if e.Config.LLM.MaxTokens = 0 then 8000 else e.Config.LLM.MaxTokens
  match o.getContent path with
  | .error err => .error err
  | .ok fullContent =>
    match o.tokenizer with
    | none =>
      if maxTokens * 4 < fullContent.data.length then
        .ok (strTake fullContent (maxTokens * 4), "truncated")
      else .ok (fullContent, "full")
    | some tkm =>
      let tokenIds := tkm.encode fullContent
      if tokenIds.length ≤ maxTokens then .ok (fullContent, "full")
      else
        match o.getDiff path with
        | .error _ => .ok (truncateTokens tkm tokenIds maxTokens, "truncated")
        | .ok diff =>
          if diff = "" then .ok (truncateTokens tkm tokenIds maxTokens, "truncated")
          else .ok (diff, "diff")

/-- The suppression check of the hit loop: scan the first 2000 characters
of the selected content for the literal ignore marker. -/
def suppressed (content : String) (adrID : String) : Bool :=
  strContains (strTake content 2000) ("archguard-ignore: " ++ adrID)

/-- The engine-side consumption of Cache.Get: a hit counts only when the
error is nil and found is true. -/
def Engine.cacheLookup (e : Engine) (fs : Fs) (key : String) : Option AnalysisResult :=
  match e.Cache with
  | none => none
  | some c =>
    let g := Cache.Get c fs key
    if g.err = none ∧ g.found then g.res else none

/-- Store the judge verdict through the cache handle, if one is present. -/
def Engine.cacheStore (e : Engine) (fs : Fs) (key : String) (res : AnalysisResult) : Fs :=
  match e.Cache with
  | none => fs
  | some c => Cache.Put c fs key res

/-- The per-hit loop body of Engine.Run: scope filter, suppression filter,
cache lookup, judge call on miss, cache store, violation count.  Returns
(violations, judge calls, updated filesystem). -/
def Engine.processHits (e : Engine) (o : Oracle) (file content systemPrompt : String) :
    List (SearchResult ℚ) → Fs → Nat × Nat × Fs
  | [], fs => (0, 0, fs)
  | hit :: rest, fs =>
    if hit.adr.Scope ≠ "" ∧ ¬ o.matchGlob hit.adr.Scope file then
      e.processHits o file content systemPrompt rest fs
    else if suppressed content hit.adr.ID then
      e.processHits o file content systemPrompt rest fs
    else
      let cacheKey := ComputeAnalysisKey o.hash e.Config.LLM.Model hit.adr.Content
        content systemPrompt ChatPrompt
      match e.cacheLookup fs cacheKey with
      | some res =>
        let out := e.processHits o file content systemPrompt rest fs
        ((if res.violation then 1 else 0) + out.1, out.2.1, out.2.2)
      | none =>
        match o.analyzeDrift hit.adr.Content content file systemPrompt with
        | .error _ => e.processHits o file content systemPrompt rest fs
        | .ok res =>
          let fs2 := e.cacheStore fs cacheKey res
          let out := e.processHits o file content systemPrompt rest fs2
          ((if res.violation then 1 else 0) + out.1, out.2.1 + 1, out.2.2)

/-- The Store.Search call inside Engine.Run: topK is the literal 3. -/
def Engine.searchHits (e : Engine) (o : Oracle) (embedding : List ℚ) :
    List (SearchResult ℚ) :=
  Store.Search o.sortSlice o.score e.Store embedding
    e.Config.VectorStore.SimilarityThreshold 3

/-- Per-file counters observable from one worker. -/
structure FileReport where
  violations : Nat
  judgeCalls : Nat
  embedCalls : Nat
deriving DecidableEq, Repr

/-- The body of one Engine.Run worker for a single file. -/
def Engine.processFile (e : Engine) (o : Oracle) (fs : Fs) (file : String) :
    FileReport × Fs :=
  match e.fetchContext o file with
  | .error _ => (⟨0, 0, 0⟩, fs)
  | .ok (content, diffMode) =>
    if diffMode = "truncated" ∧ e.CI then (⟨0, 0, 0⟩, fs)
    else
      let diffForEmbedding0 :=
        match o.getDiff file with
        | .error _ => content
        | .ok d => if d = "" then content else d
      let diffForEmbedding :=
        if 6000 < diffForEmbedding0.data.length then strTake diffForEmbedding0 6000
        else diffForEmbedding0
      match o.createEmbedding diffForEmbedding with
      | .error _ => (⟨0, 0, 1⟩, fs)
      | .ok embedding =>
        let hits := e.searchHits o embedding
        if hits = [] then (⟨0, 0, 1⟩, fs)
        else
          let systemPrompt :=
            if e.Config.LLM.SystemPrompt = "" then DefaultSystemPrompt
            else e.Config.LLM.SystemPrompt
          let out := e.processHits o file content systemPrompt hits fs
          (⟨out.1, out.2.1, 1⟩, out.2.2)

/-- Model of Go strings.TrimSuffix. -/
def trimSuffixStr (s suf : String) : String :=
  if s.data.length < suf.data.length then s
  else if s.data.drop (s.data.length - suf.data.length) = suf.data then
    String.mk (s.data.take (s.data.length - suf.data.length))
  else s

/-- analysis.Engine.shouldExclude, with filepath.Match abstracted as
o.matchPattern. -/
def Engine.shouldExclude (e : Engine) (o : Oracle) (path : String) : Bool :=
  e.Config.Analysis.ExcludePatterns.any (fun pattern =>
    o.matchPattern pattern path ||
      (strContains pattern "**" &&
        hasPrefixList (trimSuffixStr pattern "**").data path.data))

structure RunReport where
  violations : Nat
  judgeCalls : Nat
  embedCalls : Nat
  filesEntered : Nat
deriving DecidableEq, Repr

/-- Aggregation across the files of one run.  Workers run concurrently in
Go but each file contributes its counts under one aggregation lock; the
fold below realizes one serialization of that aggregation. -/
def Engine.runFiles (e : Engine) (o : Oracle) : List String → Fs → RunReport × Fs
  | [], fs => (⟨0, 0, 0, 0⟩, fs)
  | f :: rest, fs =>
    if e.shouldExclude o f then e.runFiles o rest fs
    else
      let outF := e.processFile o fs f
      let outR := e.runFiles o rest outF.2
      (⟨outF.1.violations + outR.1.violations, outF.1.judgeCalls + outR.1.judgeCalls,
        outF.1.embedCalls + outR.1.embedCalls, 1 + outR.1.filesEntered⟩, outR.2)

/-- The aggregate counters of one Engine.Run. -/
def Engine.RunReportOf (e : Engine) (o : Oracle) (fs : Fs) : RunReport :=
  match o.getFiles with
  | .error _ => ⟨0, 0, 0, 0⟩
  | .ok files => (e.runFiles o files fs).1

/-- analysis.Engine.Run: aggregate violations across files, then fail with
the count-bearing error or succeed. -/
def Engine.Run (e : Engine) (o : Oracle) (fs : Fs) : Except String Unit :=
  match o.getFiles with
  | .error err => .error err
  | .ok files =>
    let rep := (e.runFiles o files fs).1
    if 0 < rep.violations then .error (s!"found {rep.violations} architectural violations")
    else .ok ()

/-! ## cli: index load validation and runCheck -/

/-- index.Store.Load.  The persisted index file is modeled at the JSON
boundary as an already-decoded Option Store: none stands for
os.IsNotExist, in which case Load returns nil with the store left as
NewStore.  The mismatch error text (the reasons list) is abbreviated. -/
def Store.Load (persisted : Option Store) (modelName : String) (dim : Nat)
    (currentHash : String) : Except String Store :=
  match persisted with
  | none => .ok NewStore
  | some s =>
    if s.ModelName ≠ modelName ∨ s.Dim ≠ dim ∨ s.Hash ≠ currentHash then
      .error "index metadata mismatch"
    else .ok s

inductive CheckOutcome where
  | configError (msg : String)
  | analysisRan (result : Except String Unit) (report : RunReport)
deriving Repr

/-- The engine constructed by cli.runCheck via analysis.NewEngine. -/
def checkEngine (cfg : Config) (store : Store) (debug ci : Bool) : Engine :=
  ⟨cfg, store, debug, ci, some (NewCache ".")⟩

/-- The wrapping cli.runCheck applies to the engine result. -/
def wrapRunResult : Except String Unit → Except String Unit
  | .error e => .error ("analysis failed: " ++ e)
  | .ok _ => .ok ()

/-- cli.runCheck after flag parsing: CalculateHash is an external
filesystem walk, its result passed in as currentHash; a Load failure is a
config error returned before any engine is constructed; otherwise the
engine runs and its result is wrapped. -/
def runCheck (cfg : Config) (persisted : Option Store) (currentHash : String)
    (o : Oracle) (fs : Fs) (debug ci : Bool) : CheckOutcome :=
  match Store.Load persisted cfg.VectorStore.Model cfg.VectorStore.EmbeddingDim currentHash with
  | .error e =>
    .configError ("index mismatch or load failed (run archguard index to rebuild): " ++ e)
  | .ok store =>
    let engine := checkEngine cfg store debug ci
    .analysisRan (wrapRunResult (engine.Run o fs)) (engine.RunReportOf o fs)

/-! ## Concrete instances used by counterexamples and witnesses -/

/-- The empty filesystem. -/
def emptyFs : Fs :=
  fun _ => none

/-- A filesystem holding one corrupted cache entry for key "k". -/
def c7fsCorrupt : Fs :=
  fun p => if p = cachePath (NewCache ".") "k" then some "corrupt" else none

def c7verdict : AnalysisResult :=
  ⟨true, "bad", "x = 1"⟩

/-- Chat oracle that fails twice, then answers with a well-formed verdict. -/
def c2wVerdict : AnalysisResult :=
  ⟨false, "ok", ""⟩

def c2wOracle : ChatOracle :=
  ⟨fun i => if i < 2 then .error "simulated 429 error"
            else .ok (marshalAnalysisResult c2wVerdict),
   unmarshalAnalysisResult, fun _ => false⟩

/-- Two ADRs with parallel embeddings, hence equal cosine scores. -/
def cexADR0 : ADR :=
  ⟨"0001", "First", "Accepted", "", "first decision", "a.md", [1]⟩

def cexADR1 : ADR :=
  ⟨"0002", "Second", "Accepted", "", "second decision", "b.md", [1]⟩

def cexStore : Store :=
  ⟨[cexADR0, cexADR1], "h", "m", 1⟩

/-- A score function giving both ADRs the same score, as cosineSimilarity
does on parallel embeddings. -/
def cexScore : List ℚ → List ℚ → ℚ :=
  fun _ _ => 1

def cexHit0 : SearchResult ℚ :=
  ⟨0, cexADR0, 1⟩

def cexHit1 : SearchResult ℚ :=
  ⟨1, cexADR1, 1⟩

/-- A sort that satisfies everything sort.Slice guarantees, yet emits the
two equal-score hits in reversed index order. -/
def tieBreakSort : List (SearchResult ℚ) → List (SearchResult ℚ) :=
  fun l => if l = [cexHit0, cexHit1] then [cexHit1, cexHit0] else sortDesc l

/-- One character per token, so token cuts are character cuts. -/
def c5tkm : Tokenizer :=
  ⟨fun s => s.data.map Char.toNat, fun ids => String.mk (ids.map Char.ofNat)⟩

def c5Config : Config :=
  ⟨⟨"gpt-3.5-turbo", 7, ""⟩, ⟨"m", 1, 0⟩, ⟨"docs/arch", []⟩, ""⟩

def c5Engine : Engine :=
  ⟨c5Config, NewStore, false, false, none⟩

def dummyDrift : String → String → String → String → Except String AnalysisResult :=
  fun _ _ _ _ => .ok ⟨false, "", ""⟩

def c5Oracle : Oracle :=
  ⟨.ok ["t.go"], fun _ => .ok "Line1\nLine2\nLine3", fun _ => .ok "",
   some c5tkm, fun _ => .ok [1], dummyDrift, cexScore, sortDesc, id,
   fun _ _ => true, fun _ _ => false⟩

def c6Config : Config :=
  ⟨⟨"gpt-3.5-turbo", 1, ""⟩, ⟨"m", 1, 0⟩, ⟨"docs/arch", []⟩, ""⟩

def c6Engine : Engine :=
  ⟨c6Config, NewStore, false, true, none⟩

def c6Oracle : Oracle :=
  ⟨.ok ["big.go"], fun _ => .ok "a\nb", fun _ => .ok "",
   some c5tkm, fun _ => .ok [1], dummyDrift, cexScore, sortDesc, id,
   fun _ _ => true, fun _ _ => false⟩

/-- The end-to-end scenario of the spec: one matching ADR, a judge that
reports a violation. -/
def c1ADR : ADR :=
  ⟨"0001", "Use Golang", "Accepted", "", "All services must be Go.", "0001.md", [1]⟩

def c1Config : Config :=
  ⟨⟨"llama3.2", 8000, ""⟩, ⟨"nomic-embed-text", 1, 0⟩, ⟨"docs/arch", []⟩, ""⟩

def c1Engine : Engine :=
  ⟨c1Config, ⟨[c1ADR], "h", "nomic-embed-text", 1⟩, false, false, none⟩

def c1Oracle : Oracle :=
  ⟨.ok ["service.py"], fun _ => .ok "import python_library", fun _ => .ok "",
   some c5tkm, fun _ => .ok [1],
   fun _ _ _ _ => .ok ⟨true, "Python is not allowed.", "import python_library"⟩,
   cexScore, sortDesc, id, fun _ _ => true, fun _ _ => false⟩

def c9Config : Config :=
  ⟨⟨"llama3.2", 8000, ""⟩, ⟨"nomic-embed-text", 1, 0⟩, ⟨"docs/arch", []⟩, ""⟩

def c9Oracle : Oracle :=
  ⟨.ok ["main.go"], fun _ => .ok "package main", fun _ => .ok "",
   some c5tkm, fun _ => .ok [1], dummyDrift, cexScore, sortDesc, id,
   fun _ _ => true, fun _ _ => false⟩

/-- A persisted index whose recorded model name differs from the current
configuration. -/
def c9MisStore : Store :=
  ⟨[c1ADR], "h", "other-model", 1⟩

/-! # Theorems -/

theorem dropLit_self (l r : List Char) : dropLit l (l ++ r) = some r := by
  induction l with
  | nil => rfl
  | cons c cs ih => simp [dropLit, ih]

theorem parseBool_boolLit (b : Bool) (r : List Char) :
    parseBool (boolLit b ++ r) = some (b, r) := by
  cases b with
  | true => simp [boolLit, parseBool, dropLit_self]
  | false =>
    have h : dropLit trueLit (falseLit ++ r) = none := by
      simp only [trueLit, falseLit, List.cons_append, dropLit]
      rw [if_neg (by decide)]
    simp [boolLit, parseBool, h, dropLit_self]

theorem parseStringBody_escape (l r : List Char) :
    parseStringBody (escape l ++ '"' :: r) = some (l, r) := by
  induction l with
  | nil => simp [escape, parseStringBody]
  | cons c cs ih =>
    by_cases hq : c = '"'
    · subst hq
      simp [escape, escChar, parseStringBody, parseEscapeTail, consParsed, ih,
        show ('\\' : Char) ≠ '"' from by decide]
    · by_cases hb : c = '\\'
      · subst hb
        simp [escape, escChar, parseStringBody, parseEscapeTail, consParsed, ih,
          show ('\\' : Char) ≠ '"' from by decide]
      · simp [escape, escChar, parseStringBody, consParsed, hq, hb, ih]

theorem unmarshal_marshal (r : AnalysisResult) :
    unmarshalAnalysisResult (marshalAnalysisResult r) = some r := by
  obtain ⟨v, ⟨rl⟩, ⟨ql⟩⟩ := r
  unfold unmarshalAnalysisResult marshalAnalysisResult
  dsimp only
  simp only [List.append_assoc, List.singleton_append, List.cons_append, dropLit_self,
    Option.some_bind, parseBool_boolLit, parseStringBody_escape]
  simp only [List.nil_append, Option.some_bind, dropLit_self, parseStringBody_escape]
  simp

/-! ## Facts about cosineSimilarity (C4) -/

theorem dotProduct_comm (a b : List ℚ) : dotProduct a b = dotProduct b a := by
  induction a generalizing b with
  | nil => cases b <;> simp [dotProduct]
  | cons x xs ih =>
    cases b with
    | nil => simp [dotProduct]
    | cons y ys =>
      simp only [dotProduct, List.zip_cons_cons, List.map_cons, List.sum_cons] at *
      rw [mul_comm, ih ys]

theorem dotProduct_self (a : List ℚ) : dotProduct a a = sumSquares a := by
  induction a with
  | nil => rfl
  | cons x xs ih =>
    simp only [dotProduct, sumSquares, List.zip_cons_cons, List.map_cons,
      List.sum_cons] at *
    rw [ih]

theorem sumSquares_nonneg (a : List ℚ) : 0 ≤ sumSquares a := by
  induction a with
  | nil => simp [sumSquares]
  | cons x xs ih =>
    simp only [sumSquares, List.map_cons, List.sum_cons] at *
    exact add_nonneg (mul_self_nonneg x) ih

theorem sumSquares_eq_zero_iff (a : List ℚ) : sumSquares a = 0 ↔ isZeroVec a := by
  induction a with
  | nil => simp [sumSquares, isZeroVec]
  | cons x xs ih =>
    simp only [sumSquares, List.map_cons, List.sum_cons, isZeroVec,
      List.forall_mem_cons] at *
    constructor
    · intro h
      have hx : x * x = 0 ∧ (xs.map (fun y => y * y)).sum = 0 := by
        have h1 := mul_self_nonneg x
        have h2 : 0 ≤ (xs.map (fun y => y * y)).sum := sumSquares_nonneg xs
        constructor
        · nlinarith
        · nlinarith
      exact ⟨mul_self_eq_zero.mp hx.1, ih.mp hx.2⟩
    · intro h
      rw [h.1, ih.mpr h.2]
      ring

theorem cosineSimilarity_eval (a b : List ℚ) (h1 : a.length = b.length)
    (h2 : ¬ (sumSquares a = 0 ∨ sumSquares b = 0)) :
    cosineSimilarity a b =
      (dotProduct a b : ℝ) / (Real.sqrt (sumSquares a) * Real.sqrt (sumSquares b)) := by
  unfold cosineSimilarity
  rw [if_neg (by simp [h1]), if_neg h2]

theorem cosineSimilarity_zero (a b : List ℚ)
    (h : a.length ≠ b.length ∨ sumSquares a = 0 ∨ sumSquares b = 0) :
    cosineSimilarity a b = 0 := by
  unfold cosineSimilarity
  rcases h with h | h
  · rw [if_pos h]
  · rcases eq_or_ne a.length b.length with h1 | h1
    · rw [if_neg (by simp [h1]), if_pos h]
    · rw [if_pos h1]

theorem cosineSimilarity_comm (a b : List ℚ) :
    cosineSimilarity a b = cosineSimilarity b a := by
  rcases eq_or_ne a.length b.length with h1 | h1
  · rcases Classical.em (sumSquares a = 0 ∨ sumSquares b = 0) with h2 | h2
    · rw [cosineSimilarity_zero a b (Or.inr h2), cosineSimilarity_zero b a (Or.inr h2.symm)]
    · rw [cosineSimilarity_eval a b h1 h2,
        cosineSimilarity_eval b a h1.symm (fun hc => h2 hc.symm),
        dotProduct_comm, mul_comm]
  · rw [cosineSimilarity_zero a b (Or.inl h1),
      cosineSimilarity_zero b a (Or.inl (Ne.symm h1))]

/-- C4: cosineSimilarity is symmetric; on a nonzero vector paired with
itself it is exactly 1 (exact-real semantics of the float computation);
length mismatch or a zero norm yields exactly 0; and in the remaining case
the denominator is strictly positive, so the division is well defined
(the float code never produces NaN from a zero denominator). -/
theorem c4_cosine_similarity (a b : List ℚ) :
    cosineSimilarity a b = cosineSimilarity b a ∧
    (¬ isZeroVec a → cosineSimilarity a a = 1) ∧
    (a.length ≠ b.length → cosineSimilarity a b = 0) ∧
    (sumSquares a = 0 ∨ sumSquares b = 0 → cosineSimilarity a b = 0) ∧
    (a.length = b.length → ¬ (sumSquares a = 0 ∨ sumSquares b = 0) →
      0 < Real.sqrt (sumSquares a) * Real.sqrt (sumSquares b)) := by
  refine ⟨cosineSimilarity_comm a b, ?_, ?_, ?_, ?_⟩
  · intro hz
    have hS : sumSquares a ≠ 0 := fun h => hz ((sumSquares_eq_zero_iff a).mp h)
    have hpos : (0 : ℚ) < sumSquares a := lt_of_le_of_ne (sumSquares_nonneg a) (Ne.symm hS)
    have hposR : (0 : ℝ) < (sumSquares a : ℝ) := by exact_mod_cast hpos
    rw [cosineSimilarity_eval a a rfl (by simp [hS]), dotProduct_self,
      Real.mul_self_sqrt (le_of_lt hposR)]
    exact div_self (ne_of_gt hposR)
  · intro h
    exact cosineSimilarity_zero a b (Or.inl h)
  · intro h
    exact cosineSimilarity_zero a b (Or.inr h)
  · intro hlen hnz
    push_neg at hnz
    have ha : (0 : ℚ) < sumSquares a := lt_of_le_of_ne (sumSquares_nonneg a) (Ne.symm hnz.1)
    have hb : (0 : ℚ) < sumSquares b := lt_of_le_of_ne (sumSquares_nonneg b) (Ne.symm hnz.2)
    have haR : (0 : ℝ) < (sumSquares a : ℝ) := by exact_mod_cast ha
    have hbR : (0 : ℝ) < (sumSquares b : ℝ) := by exact_mod_cast hb
    exact mul_pos (Real.sqrt_pos.mpr haR) (Real.sqrt_pos.mpr hbR)

/-- C4 witness: concrete evaluations through the theorem. -/
theorem c4_cosine_similarity_witness :
    cosineSimilarity [1] [1] = 1 ∧ cosineSimilarity [1] [1, 1] = 0 ∧
    cosineSimilarity [0] [1] = 0 := by
  refine ⟨(c4_cosine_similarity [1] [1]).2.1 (by simp [isZeroVec]),
    (c4_cosine_similarity [1] [1, 1]).2.2.1 (by simp),
    (c4_cosine_similarity [0] [1]).2.2.2.1 (Or.inl (by simp [sumSquares]))⟩

/-! ## Facts about ComputeAnalysisKey (C8) -/

theorem strEq_of_data {a b : String} (h : a.data = b.data) : a = b := by
  cases a
  cases b
  cases h
  rfl

theorem strData_append (s t : String) : (s ++ t).data = s.data ++ t.data := by
  cases s
  cases t
  rfl

theorem strAppend_right_cancel {a b t : String} (h : a ++ t = b ++ t) : a = b := by
  apply strEq_of_data
  have hd : a.data ++ t.data = b.data ++ t.data := by
    rw [← strData_append, ← strData_append, h]
  exact List.append_cancel_right hd

theorem strAppend_left_cancel {p a b : String} (h : p ++ a = p ++ b) : a = b := by
  apply strEq_of_data
  have hd : p.data ++ a.data = p.data ++ b.data := by
    rw [← strData_append, ← strData_append, h]
  exact List.append_cancel_left hd

/-- C8: the fingerprint is a function of the ordered five-tuple (it is a
pure function, so determinism is definitional), and — with sha256 modeled
as an arbitrary injective digest — changing any single component while
fixing the other four changes the fingerprint, because the separator-joined
preimage string is injective in each component. -/
theorem c8_fingerprint_sensitivity (hash : String → String)
    (hinj : Function.Injective hash) (m a f s t : String) :
    (∀ m2, m ≠ m2 →
      ComputeAnalysisKey hash m a f s t ≠ ComputeAnalysisKey hash m2 a f s t) ∧
    (∀ a2, a ≠ a2 →
      ComputeAnalysisKey hash m a f s t ≠ ComputeAnalysisKey hash m a2 f s t) ∧
    (∀ f2, f ≠ f2 →
      ComputeAnalysisKey hash m a f s t ≠ ComputeAnalysisKey hash m a f2 s t) ∧
    (∀ s2, s ≠ s2 →
      ComputeAnalysisKey hash m a f s t ≠ ComputeAnalysisKey hash m a f s2 t) ∧
    (∀ t2, t ≠ t2 →
      ComputeAnalysisKey hash m a f s t ≠ ComputeAnalysisKey hash m a f s t2) := by
  refine ⟨?_, ?_, ?_, ?_, ?_⟩ <;> intro x2 hne heq <;> apply hne <;>
    have h0 := hinj heq
  · exact strAppend_right_cancel (strAppend_right_cancel (strAppend_right_cancel
      (strAppend_right_cancel (strAppend_right_cancel (strAppend_right_cancel
        (strAppend_right_cancel (strAppend_right_cancel h0)))))))
  · exact strAppend_left_cancel (strAppend_right_cancel (strAppend_right_cancel
      (strAppend_right_cancel (strAppend_right_cancel (strAppend_right_cancel
        (strAppend_right_cancel h0))))))
  · exact strAppend_left_cancel (strAppend_right_cancel (strAppend_right_cancel
      (strAppend_right_cancel (strAppend_right_cancel h0))))
  · exact strAppend_left_cancel (strAppend_right_cancel (strAppend_right_cancel h0))
  · exact strAppend_left_cancel h0

/-- C8 witness: with the identity digest, concrete one-component changes
change the key. -/
theorem c8_fingerprint_sensitivity_witness :
    ComputeAnalysisKey id "m" "a" "f" "s" "t" ≠ ComputeAnalysisKey id "x" "a" "f" "s" "t" ∧
    ComputeAnalysisKey id "m" "a" "f" "s" "t" ≠ ComputeAnalysisKey id "m" "x" "f" "s" "t" ∧
    ComputeAnalysisKey id "m" "a" "f" "s" "t" ≠ ComputeAnalysisKey id "m" "a" "x" "s" "t" ∧
    ComputeAnalysisKey id "m" "a" "f" "s" "t" ≠ ComputeAnalysisKey id "m" "a" "f" "x" "t" ∧
    ComputeAnalysisKey id "m" "a" "f" "s" "t" ≠ ComputeAnalysisKey id "m" "a" "f" "s" "x" := by
  have h := c8_fingerprint_sensitivity id (fun _ _ hx => hx) "m" "a" "f" "s" "t"
  exact ⟨h.1 "x" (by decide), h.2.1 "x" (by decide), h.2.2.1 "x" (by decide),
    h.2.2.2.1 "x" (by decide), h.2.2.2.2 "x" (by decide)⟩

/-! ## Facts about the result cache (C7) -/

/-- C7 counterexample: a corrupted stored entry does NOT behave identically
to an unknown fingerprint at the Cache.Get boundary — both report
found = false, but the corrupted entry additionally returns the unmarshal
error, while the unknown fingerprint returns a nil error. -/
theorem c7_cache_counterexample :
    Cache.Get (NewCache ".") c7fsCorrupt "k" ≠ Cache.Get (NewCache ".") emptyFs "k" ∧
    (Cache.Get (NewCache ".") c7fsCorrupt "k").err ≠ none ∧
    (Cache.Get (NewCache ".") emptyFs "k").err = none := by
  refine ⟨by decide, by decide, by decide⟩

/-- C7 amended: Put then Get round-trips to (v, true, nil); an unknown
fingerprint yields (nil, false, nil); a corrupted entry yields found =
false together with a non-nil parse error — so it is treated as a miss,
but the error is surfaced in Get's return; the engine's consumption
(err == nil && found) therefore treats a corrupted entry identically to an
unknown fingerprint. -/
theorem c7_cache_roundtrip (c : Cache) (fs : Fs) (key : String) (v : AnalysisResult) :
    Cache.Get c (Cache.Put c fs key v) key = ⟨some v, true, none⟩ ∧
    (fs (cachePath c key) = none → Cache.Get c fs key = ⟨none, false, none⟩) ∧
    (∀ data, fs (cachePath c key) = some data → unmarshalAnalysisResult data = none →
      (Cache.Get c fs key).found = false ∧ (Cache.Get c fs key).err ≠ none) ∧
    (∀ e : Engine, e.Cache = some c → ∀ data, fs (cachePath c key) = some data →
      unmarshalAnalysisResult data = none → e.cacheLookup fs key = none) := by
  refine ⟨?_, ?_, ?_, ?_⟩
  · simp [Cache.Get, Cache.Put, unmarshal_marshal]
  · intro h
    simp [Cache.Get, h]
  · intro data hd hu
    simp [Cache.Get, hd, hu]
  · intro e he data hd hu
    simp [Engine.cacheLookup, he, Cache.Get, hd, hu]

/-- C7 witness: concrete round-trip and miss behavior via the theorem. -/
theorem c7_cache_roundtrip_witness :
    Cache.Get (NewCache ".") (Cache.Put (NewCache ".") emptyFs "k" c7verdict) "k" =
      ⟨some c7verdict, true, none⟩ ∧
    Cache.Get (NewCache ".") emptyFs "k" = ⟨none, false, none⟩ := by
  exact ⟨(c7_cache_roundtrip (NewCache ".") emptyFs "k" c7verdict).1,
    (c7_cache_roundtrip (NewCache ".") emptyFs "k" c7verdict).2.1 rfl⟩

/-! ## Facts about the AnalyzeDrift retry loop (C2) -/

/-- C2: on provider errors AnalyzeDrift retries with backoff 2s then 4s
then 8s, making at most 4 attempts in total; a call that fails twice and
then succeeds returns the parsed verdict after exactly 3 attempts having
slept 2s and 4s; a call that always fails makes exactly 4 attempts, sleeps
2s, 4s, 8s, and returns the terminal error wrapping the last failure; a
cancellation observed during a backoff wait aborts the judgment
immediately with the context error and no further attempts. -/
theorem c2_analyze_drift_retry (o : ChatOracle) :
    (∀ e0 e1 raw v, o.chat 0 = .error e0 → o.chat 1 = .error e1 → o.chat 2 = .ok raw →
      o.unmarshal (CleanJSON raw) = some v →
      o.cancelled 1 = false → o.cancelled 2 = false →
      AnalyzeDrift o = ⟨.ok v, 3, [2, 4]⟩) ∧
    (∀ e0 e1 e2 e3, o.chat 0 = .error e0 → o.chat 1 = .error e1 → o.chat 2 = .error e2 →
      o.chat 3 = .error e3 →
      o.cancelled 1 = false → o.cancelled 2 = false → o.cancelled 3 = false →
      AnalyzeDrift o = ⟨.error ("analysis failed after 3 retries: " ++ e3), 4, [2, 4, 8]⟩) ∧
    (∀ e0, o.chat 0 = .error e0 → o.cancelled 1 = true →
      AnalyzeDrift o = ⟨.error ctxCanceledErr, 1, []⟩) ∧
    (∀ e0 e1, o.chat 0 = .error e0 → o.chat 1 = .error e1 →
      o.cancelled 1 = false → o.cancelled 2 = true →
      AnalyzeDrift o = ⟨.error ctxCanceledErr, 2, [2]⟩) := by
  refine ⟨?_, ?_, ?_, ?_⟩
  · intro e0 e1 raw v h0 h1 h2 hv hc1 hc2
    simp [AnalyzeDrift, analyzeDriftLoop, h0, h1, h2, hv, hc1, hc2]
  · intro e0 e1 e2 e3 h0 h1 h2 h3 hc1 hc2 hc3
    simp [AnalyzeDrift, analyzeDriftLoop, h0, h1, h2, h3, hc1, hc2, hc3]
  · intro e0 h0 hc1
    simp [AnalyzeDrift, analyzeDriftLoop, h0, hc1]
  · intro e0 e1 h0 h1 hc1 hc2
    simp [AnalyzeDrift, analyzeDriftLoop, h0, h1, hc1, hc2]

/-- C2 witness: the fails-twice-then-succeeds oracle runs through the
theorem to the successful verdict on attempt 3 after sleeping 2s and 4s. -/
theorem c2_analyze_drift_retry_witness :
    AnalyzeDrift c2wOracle =
      ⟨.ok c2wVerdict, 3, [2, 4]⟩ := by
  exact (c2_analyze_drift_retry c2wOracle).1 "simulated 429 error" "simulated 429 error"
    (marshalAnalysisResult c2wVerdict) c2wVerdict rfl rfl rfl (by decide) rfl rfl

/-! ## Facts about Store.Search (C3) -/

theorem insertDesc_perm {α : Type} [LinearOrder α] (x : SearchResult α)
    (l : List (SearchResult α)) : (insertDesc x l).Perm (x :: l) := by
  induction l with
  | nil => simp [insertDesc]
  | cons y l ih =>
    by_cases h : y.score ≤ x.score
    · rw [insertDesc, if_pos h]
    · rw [insertDesc, if_neg h]
      exact (ih.cons y).trans (List.Perm.swap x y l)

theorem insertDesc_pairwise {α : Type} [LinearOrder α] (x : SearchResult α)
    (l : List (SearchResult α)) (h : l.Pairwise (fun a b => b.score ≤ a.score)) :
    (insertDesc x l).Pairwise (fun a b => b.score ≤ a.score) := by
  induction l with
  | nil => simp [insertDesc]
  | cons y l ih =>
    rw [List.pairwise_cons] at h
    obtain ⟨hy, hl⟩ := h
    by_cases hxy : y.score ≤ x.score
    · rw [insertDesc, if_pos hxy]
      refine List.Pairwise.cons ?_ (List.Pairwise.cons hy hl)
      intro z hz
      rcases List.mem_cons.mp hz with rfl | hz
      · exact hxy
      · exact le_trans (hy z hz) hxy
    · rw [insertDesc, if_neg hxy]
      refine List.Pairwise.cons ?_ (ih hl)
      intro z hz
      rcases List.mem_cons.mp ((insertDesc_perm x l).mem_iff.mp hz) with rfl | hz
      · exact le_of_not_le hxy
      · exact hy z hz

theorem sortDesc_perm {α : Type} [LinearOrder α] (l : List (SearchResult α)) :
    (sortDesc l).Perm l := by
  induction l with
  | nil => simp [sortDesc]
  | cons x l ih => exact (insertDesc_perm x (sortDesc l)).trans (ih.cons x)

theorem sortDesc_pairwise {α : Type} [LinearOrder α] (l : List (SearchResult α)) :
    (sortDesc l).Pairwise (fun a b => b.score ≤ a.score) := by
  induction l with
  | nil => simp [sortDesc]
  | cons x l ih => exact insertDesc_pairwise x (sortDesc l) ih

theorem sortDesc_spec {α : Type} [LinearOrder α] :
    SortSliceSpec (sortDesc : List (SearchResult α) → List (SearchResult α)) :=
  fun l => ⟨sortDesc_perm l, sortDesc_pairwise l⟩

theorem tieBreakSort_spec : SortSliceSpec tieBreakSort := by
  intro l
  unfold tieBreakSort
  by_cases h : l = [cexHit0, cexHit1]
  · rw [if_pos h, h]
    exact ⟨by decide, by decide⟩
  · rw [if_neg h]
    exact sortDesc_spec l

/-- C3 counterexample: the claim's tie rule (equal-score ties kept in
original index order) is not guaranteed by the code.  Store.Search sorts
with Go sort.Slice, which promises only a permutation ordered by the less
function and is documented as NOT stable.  tieBreakSort satisfies
everything sort.Slice guarantees, yet on a store with two equal-score ADRs
(parallel embeddings) Store.Search returns the hits in reversed index
order, differing from the spec-stable ranking. -/
theorem c3_search_counterexample :
    SortSliceSpec tieBreakSort ∧
    Store.Search tieBreakSort cexScore cexStore [1] 0 3 = [cexHit1, cexHit0] ∧
    (sortDesc (filteredResults cexScore cexStore [1] 0)).take 3 = [cexHit0, cexHit1] ∧
    Store.Search tieBreakSort cexScore cexStore [1] 0 3 ≠
      (sortDesc (filteredResults cexScore cexStore [1] 0)).take 3 := by
  exact ⟨tieBreakSort_spec, by decide, by decide, by decide⟩

/-- C3 amended: for every sort function satisfying the sort.Slice contract,
Store.Search returns only hits scoring at least the threshold, in
non-increasing score order, truncated to at most topK: its length is
min(topK, number of passing candidates), it is a sub-permutation of the
passing candidates, and when they all fit in topK it is exactly a
permutation of them.  The order among equal scores is unspecified. -/
theorem c3_search_ranking {α : Type} [LinearOrder α]
    (sortFn : List (SearchResult α) → List (SearchResult α)) (hs : SortSliceSpec sortFn)
    (score : List ℚ → List ℚ → α) (s : Store) (q : List ℚ) (threshold : α) (topK : ℕ) :
    (∀ r ∈ Store.Search sortFn score s q threshold topK, threshold ≤ r.score) ∧
    (Store.Search sortFn score s q threshold topK).Pairwise (fun a b => b.score ≤ a.score) ∧
    (Store.Search sortFn score s q threshold topK).length =
      min topK (filteredResults score s q threshold).length ∧
    List.Subperm (Store.Search sortFn score s q threshold topK)
      (filteredResults score s q threshold) ∧
    ((filteredResults score s q threshold).length ≤ topK →
      (Store.Search sortFn score s q threshold topK).Perm
        (filteredResults score s q threshold)) := by
  obtain ⟨hperm, hpair⟩ := hs (filteredResults score s q threshold)
  refine ⟨?_, ?_, ?_, ?_, ?_⟩
  · intro r hr
    have hr2 : r ∈ filteredResults score s q threshold :=
      hperm.mem_iff.mp (List.mem_of_mem_take hr)
    exact of_decide_eq_true (List.mem_filter.mp hr2).2
  · exact hpair.sublist (List.take_sublist _ _)
  · rw [show Store.Search sortFn score s q threshold topK =
      (sortFn (filteredResults score s q threshold)).take topK from rfl,
      List.length_take, hperm.length_eq]
  · exact (List.take_sublist _ _).subperm.trans hperm.subperm
  · intro hlen
    have hlen2 : (sortFn (filteredResults score s q threshold)).length ≤ topK := by
      rw [hperm.length_eq]
      exact hlen
    rw [show Store.Search sortFn score s q threshold topK =
      (sortFn (filteredResults score s q threshold)).take topK from rfl,
      List.take_of_length_le hlen2]
    exact hperm

/-- C3 witness: the amended theorem evaluated on the concrete two-ADR store
with the (stable, contract-satisfying) reference sort. -/
theorem c3_search_ranking_witness :
    (Store.Search sortDesc cexScore cexStore [1] 0 3).length =
      min 3 (filteredResults cexScore cexStore [1] 0).length :=
  (c3_search_ranking sortDesc sortDesc_spec cexScore cexStore [1] 0 3).2.2.1

/-! ## Facts about Engine.fetchContext (C5) -/

theorem lastIdxOf_take (c : Char) (l : List Char) (i : Nat)
    (h : lastIdxOf c l = some i) : l.take (i + 1) = l.take i ++ [c] := by
  induction l generalizing i with
  | nil => simp [lastIdxOf] at h
  | cons x xs ih =>
    rw [lastIdxOf] at h
    cases hx : lastIdxOf c xs with
    | some j =>
      rw [hx] at h
      cases Option.some.inj h
      simp only [List.take_succ_cons, List.cons_append]
      rw [ih j hx]
    | none =>
      rw [hx] at h
      by_cases hxc : x = c
      · rw [if_pos hxc] at h
        cases Option.some.inj h
        simp [hxc]
      · rw [if_neg hxc] at h
        exact Option.noConfusion h

/-- C5: with the tokenizer available, fetchContext returns the full content
with mode full when its token count fits the ceiling (8000 when the
configured ceiling is 0); above the ceiling a non-empty diff is returned
verbatim with mode diff; with no diff (empty or erroring) the token cut is
decoded and rolled back to the last newline, so the truncated text ends in
a newline whenever one precedes the cut, and is returned unmodified when
none does. -/
theorem c5_fetch_context (e : Engine) (o : Oracle) (path : String) (tkm : Tokenizer)
    (c : String) (ht : o.tokenizer = some tkm) (hc : o.getContent path = .ok c) :
    (((tkm.encode c).length ≤
        (if e.Config.LLM.MaxTokens = 0 then 8000 else e.Config.LLM.MaxTokens) →
      e.fetchContext o path = .ok (c, "full")) ∧
     ((if e.Config.LLM.MaxTokens = 0 then 8000 else e.Config.LLM.MaxTokens) <
        (tkm.encode c).length →
      ∀ d, o.getDiff path = .ok d → d ≠ "" → e.fetchContext o path = .ok (d, "diff")) ∧
     ((if e.Config.LLM.MaxTokens = 0 then 8000 else e.Config.LLM.MaxTokens) <
        (tkm.encode c).length →
      (o.getDiff path = .ok "" ∨ ∃ err, o.getDiff path = .error err) →
      e.fetchContext o path = .ok (truncateTokens tkm (tkm.encode c)
        (if e.Config.LLM.MaxTokens = 0 then 8000 else e.Config.LLM.MaxTokens),
        "truncated"))) ∧
    (∀ ids n i, lastIdxOf '\n' (tkm.decode (ids.take n)).data = some i →
      truncateTokens tkm ids n = strTake (tkm.decode (ids.take n)) (i + 1) ∧
      (truncateTokens tkm ids n).data.getLast? = some '\n') ∧
    (∀ ids n, lastIdxOf '\n' (tkm.decode (ids.take n)).data = none →
      truncateTokens tkm ids n = tkm.decode (ids.take n)) := by
  refine ⟨⟨?_, ?_, ?_⟩, ?_, ?_⟩
  · intro hle
    simp [Engine.fetchContext, hc, ht, hle]
  · intro hgt d hd hne
    have hgt2 : ¬ ((tkm.encode c).length ≤
        (if e.Config.LLM.MaxTokens = 0 then 8000 else e.Config.LLM.MaxTokens)) :=
      not_le.mpr hgt
    simp [Engine.fetchContext, hc, ht, hd, hgt2, hne]
  · intro hgt hdc
    have hgt2 : ¬ ((tkm.encode c).length ≤
        (if e.Config.LLM.MaxTokens = 0 then 8000 else e.Config.LLM.MaxTokens)) :=
      not_le.mpr hgt
    rcases hdc with hd | ⟨err, hd⟩ <;>
      simp [Engine.fetchContext, hc, ht, hd, hgt2]
  · intro ids n i h
    constructor
    · simp only [truncateTokens]
      rw [h]
    · simp only [truncateTokens]
      rw [h]
      show ((tkm.decode (ids.take n)).data.take (i + 1)).getLast? = some '\n'
      rw [lastIdxOf_take _ _ _ h]
      exact List.getLast?_concat _
  · intro ids n h
    simp only [truncateTokens]
    rw [h]

/-- C5 witness: a concrete engine with token ceiling 7 over
"Line1\nLine2\nLine3" truncates and rolls back to "Line1\n". -/
theorem c5_fetch_context_witness :
    c5Engine.fetchContext c5Oracle "t.go" =
      .ok (truncateTokens c5tkm (c5tkm.encode "Line1\nLine2\nLine3") 7, "truncated") ∧
    truncateTokens c5tkm (c5tkm.encode "Line1\nLine2\nLine3") 7 = "Line1\n" ∧
    (truncateTokens c5tkm (c5tkm.encode "Line1\nLine2\nLine3") 7).data.getLast? =
      some '\n' := by
  have h := c5_fetch_context c5Engine c5Oracle "t.go" c5tkm "Line1\nLine2\nLine3" rfl rfl
  refine ⟨h.1.2.2 (by decide) (Or.inl rfl), by decide,
    (h.2.1 (c5tkm.encode "Line1\nLine2\nLine3") 7 5 (by decide)).2⟩

/-! ## Facts about the CI warn-open skip (C6) -/

/-- C6: in CI mode a file whose context resolution reports mode truncated
is skipped whole: no embedding call, no search, no judge call, zero
violations — and a run over just that file succeeds. -/
theorem c6_ci_truncated_skip (e : Engine) (o : Oracle) (fs : Fs) (file c : String)
    (hci : e.CI = true) (hf : e.fetchContext o file = .ok (c, "truncated")) :
    e.processFile o fs file = (⟨0, 0, 0⟩, fs) ∧
    (o.getFiles = .ok [file] → e.Run o fs = .ok ()) := by
  have hpf : e.processFile o fs file = (⟨0, 0, 0⟩, fs) := by
    simp [Engine.processFile, hf, hci]
  refine ⟨hpf, ?_⟩
  intro hg
  simp only [Engine.Run, hg]
  by_cases hex : e.shouldExclude o file = true
  · simp [Engine.runFiles, hex]
  · simp [Engine.runFiles, hex, hpf]

/-- C6 witness: concrete CI engine; the big file is skipped and the run
succeeds. -/
theorem c6_ci_truncated_skip_witness :
    c6Engine.processFile c6Oracle emptyFs "big.go" = (⟨0, 0, 0⟩, emptyFs) ∧
    c6Engine.Run c6Oracle emptyFs = .ok () := by
  have h := c6_ci_truncated_skip c6Engine c6Oracle emptyFs "big.go" "a" rfl rfl
  exact ⟨h.1, h.2 rfl⟩

/-! ## Facts about Engine.Run aggregation (C1) and the topK bound (C10) -/

theorem processHits_judge_le (e : Engine) (o : Oracle) (file content sp : String)
    (hits : List (SearchResult ℚ)) (fs : Fs) :
    (e.processHits o file content sp hits fs).2.1 ≤ hits.length := by
  induction hits generalizing fs with
  | nil => simp [Engine.processHits]
  | cons hit rest ih =>
    rw [Engine.processHits]
    split
    · exact le_trans (ih fs) (Nat.le_succ _)
    · split
      · exact le_trans (ih fs) (Nat.le_succ _)
      · dsimp only
        cases e.cacheLookup fs (ComputeAnalysisKey o.hash e.Config.LLM.Model
            hit.adr.Content content sp ChatPrompt) with
        | some res =>
          dsimp only
          exact le_trans (ih fs) (Nat.le_succ _)
        | none =>
          cases o.analyzeDrift hit.adr.Content content file sp with
          | error err => exact le_trans (ih fs) (Nat.le_succ _)
          | ok res =>
            dsimp only
            exact Nat.succ_le_succ (ih _)

/-- C10: the search inside Engine.Run is called with topK hard-coded to 3:
at most three ADR candidates are retrieved for a file, and at most three
judge calls are made for it, whatever the configuration says. -/
theorem c10_topk_limit (e : Engine) (o : Oracle) (fs : Fs) (file : String)
    (embedding : List ℚ) :
    (e.searchHits o embedding).length ≤ 3 ∧
    (e.processFile o fs file).1.judgeCalls ≤ 3 := by
  have hlen : ∀ emb, (e.searchHits o emb).length ≤ 3 :=
    fun emb => List.length_take_le 3 _
  refine ⟨hlen embedding, ?_⟩
  rw [Engine.processFile]
  split
  · simp
  · split
    · simp
    · dsimp only
      split
      · simp
      · split
        · simp
        · dsimp only
          exact le_trans (processHits_judge_le e o _ _ _ _ _) (hlen _)

/-- C1: Engine.Run fails exactly when the aggregate violation count is
positive, with the count-bearing message (for one violation the message is
exactly "found 1 architectural violations"), succeeds on zero; and a judge
failure on one ADR hit contributes nothing to the count and leaves the
remaining hits of that file processed exactly as without it. -/
theorem c1_run_aggregation (e : Engine) (o : Oracle) (fs : Fs) :
    (∀ files, o.getFiles = .ok files →
      ((0 < ((e.runFiles o files fs).1).violations →
        e.Run o fs =
          .error (s!"found {((e.runFiles o files fs).1).violations} architectural violations")) ∧
       (((e.runFiles o files fs).1).violations = 0 → e.Run o fs = .ok ()) ∧
       (((e.runFiles o files fs).1).violations = 1 →
        e.Run o fs = .error "found 1 architectural violations"))) ∧
    (∀ file content sp hit rest fs2 err,
      ¬ (hit.adr.Scope ≠ "" ∧ ¬ o.matchGlob hit.adr.Scope file) →
      suppressed content hit.adr.ID = false →
      e.cacheLookup fs2 (ComputeAnalysisKey o.hash e.Config.LLM.Model hit.adr.Content
        content sp ChatPrompt) = none →
      o.analyzeDrift hit.adr.Content content file sp = .error err →
      e.processHits o file content sp (hit :: rest) fs2 =
        e.processHits o file content sp rest fs2) := by
  constructor
  · intro files hf
    refine ⟨?_, ?_, ?_⟩
    · intro hv
      simp only [Engine.Run, hf]
      rw [if_pos hv]
    · intro hv
      simp only [Engine.Run, hf]
      rw [if_neg (by simp [hv])]
    · intro hv
      simp only [Engine.Run, hf]
      rw [hv, if_pos (by norm_num)]
      rfl
  · intro file content sp hit rest fs2 err h1 h2 h3 h4
    rw [Engine.processHits, if_neg h1]
    rw [if_neg (by simp [h2])]
    simp only [h3, h4]

/-- C1 witness: the end-to-end scenario — one matching ADR, one file, a
judge verdict reporting a violation — fails with exactly
"found 1 architectural violations". -/
theorem c1_run_aggregation_witness :
    c1Engine.Run c1Oracle emptyFs = .error "found 1 architectural violations" := by
  have h := (c1_run_aggregation c1Engine c1Oracle emptyFs).1 ["service.py"] rfl
  exact h.2.2 (by decide)

/-! ## Facts about runCheck index validation (C9) -/

/-- C9 counterexample: a missing persisted index does NOT fail the run.
Store.Load returns nil on os.IsNotExist, so runCheck proceeds with an
empty store: the run reaches per-file analysis (one file entered, one
embedding call) and succeeds. -/
theorem c9_missing_index_counterexample :
    runCheck c9Config none "currenthash" c9Oracle emptyFs false false =
      CheckOutcome.analysisRan (.ok ()) ⟨0, 0, 1, 1⟩ ∧
    (∀ msg, runCheck c9Config none "currenthash" c9Oracle emptyFs false false ≠
      CheckOutcome.configError msg) := by
  have h : runCheck c9Config none "currenthash" c9Oracle emptyFs false false =
      CheckOutcome.analysisRan (.ok ()) ⟨0, 0, 1, 1⟩ := rfl
  refine ⟨h, ?_⟩
  intro msg hmsg
  rw [h] at hmsg
  exact CheckOutcome.noConfusion hmsg

/-- C9 amended: a PRESENT index whose recorded model name, dimensionality
or content hash mismatches the current configuration fails the run
immediately with a configuration error, before any engine exists — no
per-file analysis runs.  A MISSING index is not an error: Load yields the
empty store and the analysis proceeds over it. -/
theorem c9_index_validation (cfg : Config) (o : Oracle) (fs : Fs) (hash2 : String)
    (debug ci : Bool) :
    (∀ s : Store,
      s.ModelName ≠ cfg.VectorStore.Model ∨ s.Dim ≠ cfg.VectorStore.EmbeddingDim ∨
        s.Hash ≠ hash2 →
      runCheck cfg (some s) hash2 o fs debug ci =
        CheckOutcome.configError
          ("index mismatch or load failed (run archguard index to rebuild): " ++
            "index metadata mismatch")) ∧
    (runCheck cfg none hash2 o fs debug ci =
      CheckOutcome.analysisRan (wrapRunResult ((checkEngine cfg NewStore debug ci).Run o fs))
        ((checkEngine cfg NewStore debug ci).RunReportOf o fs)) ∧
    (∀ s : Store, s.ModelName = cfg.VectorStore.Model → s.Dim = cfg.VectorStore.EmbeddingDim →
      s.Hash = hash2 →
      runCheck cfg (some s) hash2 o fs debug ci =
        CheckOutcome.analysisRan (wrapRunResult ((checkEngine cfg s debug ci).Run o fs))
          ((checkEngine cfg s debug ci).RunReportOf o fs)) := by
  refine ⟨?_, rfl, ?_⟩
  · intro s hmis
    simp only [runCheck, Store.Load]
    rw [if_pos hmis]
  · intro s h1 h2 h3
    simp only [runCheck, Store.Load]
    rw [if_neg (by simp [h1, h2, h3])]

/-- C9 witness: a persisted index recorded under a different embedding
model makes the run fail with the configuration error. -/
theorem c9_index_validation_witness :
    runCheck c9Config (some c9MisStore) "h" c9Oracle emptyFs false false =
      CheckOutcome.configError
        ("index mismatch or load failed (run archguard index to rebuild): " ++
          "index metadata mismatch") :=
  (c9_index_validation c9Config c9Oracle emptyFs "h" false false).1 c9MisStore
    (Or.inl (by decide))

end ArchGuard
